import Mathlib

/-!
Verification of the core components of the Agentes_IA repository:
the order-lifecycle tracker and proactive monitor loop of
`src/agents/delivery_agent.py`, and the room-layout placer of
`src/agents/room_design_agent.py`, shallowly embedded in Lean 4.

Timestamps are modelled as rational numbers of seconds; `datetime.now()`
becomes an explicit `now` argument, so `now - p.ts` is the
`tiempo_transcurrido` the Python code computes.  Python floats are
modelled by exact rationals.
-/

namespace AgentesIA

/-- `EstadoPedido` — the order lifecycle states of `delivery_agent.py`. -/
inductive EstadoPedido where
  | CONFIRMANDO
  | EN_PREPARACION
  | MOTORIZADO_ASIGNADO
  | EN_CAMINO
  | ENTREGADO
  | CANCELADO
deriving DecidableEq, Repr

/-- `MonitoreoAPI.progresion_estados` — the fixed progression list. -/
def progresion_estados : List EstadoPedido :=
  [EstadoPedido.CONFIRMANDO, EstadoPedido.EN_PREPARACION,
   EstadoPedido.MOTORIZADO_ASIGNADO, EstadoPedido.EN_CAMINO,
   EstadoPedido.ENTREGADO]

/-- One entry of `MonitoreoAPI.pedidos_estado`: stored state, the
`timestamp_ultimo_cambio` (seconds), and `indice_progresion`. -/
structure PedidoInfo where
  estado : EstadoPedido
  ts : ℚ
  indice : ℕ
deriving DecidableEq, Repr

/-- The record a first query installs for an unseen order id
(`consultar_estado_pedido`, initialization branch). -/
def initPedido (now : ℚ) : PedidoInfo :=
  { estado := EstadoPedido.CONFIRMANDO, ts := now, indice := 0 }

/-- `MonitoreoAPI.consultar_estado_pedido`, progression step on one stored
record: if more than 15 seconds elapsed since the last change and the
progression index is not yet the last one, advance one index, store the
corresponding state and reset the timestamp; otherwise leave the record
unchanged.  The returned state is the (possibly advanced) `estado`. -/
def consultar_estado_pedido (p : PedidoInfo) (now : ℚ) : PedidoInfo :=
  let tiempo_transcurrido := now - p.ts
  if 15 < tiempo_transcurrido ∧ p.indice < progresion_estados.length - 1 then
    { estado := progresion_estados.getD (p.indice + 1) p.estado,
      ts := now,
      indice := p.indice + 1 }
  else p

/-- The per-record invariant of the tracker: the stored index never passes
the end of the progression list and the stored state is exactly the
progression list at the stored index. -/
def InvPedido (p : PedidoInfo) : Prop :=
  p.indice ≤ 4 ∧ p.estado = progresion_estados.getD p.indice EstadoPedido.CANCELADO

/-- Terminal states per the spec: Delivered or Cancelled. -/
def esTerminal : EstadoPedido → Bool
  | EstadoPedido.ENTREGADO => true
  | EstadoPedido.CANCELADO => true
  | _ => false

end AgentesIA

namespace AgentesIA

/-- C5: a query made at most the threshold after the last change leaves the
record (hence the returned state) unchanged. -/
theorem consultar_idempotent_under_threshold (p : PedidoInfo) (now : ℚ)
    (h : now - p.ts ≤ 15) : consultar_estado_pedido p now = p := by
  unfold consultar_estado_pedido
  rw [if_neg]
  rintro ⟨h15, -⟩
  exact absurd h (not_le.mpr h15)

/-- Witness for `consultar_idempotent_under_threshold` at a concrete record. -/
theorem consultar_idempotent_under_threshold_witness :
    consultar_estado_pedido ⟨EstadoPedido.EN_PREPARACION, 3, 1⟩ 10
      = ⟨EstadoPedido.EN_PREPARACION, 3, 1⟩ :=
  consultar_idempotent_under_threshold ⟨EstadoPedido.EN_PREPARACION, 3, 1⟩ 10 (by norm_num)

/-- C3: a record in a terminal state (Delivered or Cancelled) that satisfies
the tracker invariant is never changed by a query. -/
theorem consultar_terminal_unchanged (p : PedidoInfo) (now : ℚ)
    (hinv : InvPedido p)
    (hterm : p.estado = EstadoPedido.ENTREGADO ∨ p.estado = EstadoPedido.CANCELADO) :
    consultar_estado_pedido p now = p := by
  obtain ⟨hle, hst⟩ := hinv
  rcases Nat.lt_or_ge p.indice 4 with hlt4 | hge
  · exfalso
    interval_cases h : p.indice <;>
      simp [progresion_estados] at hst <;>
      rw [hst] at hterm <;> simp at hterm
  · have h4 : p.indice = 4 := le_antisymm hle hge
    unfold consultar_estado_pedido
    rw [if_neg]
    rintro ⟨-, hlt⟩
    rw [h4] at hlt
    simp [progresion_estados] at hlt

/-- Witness for `consultar_terminal_unchanged`: a delivered order polled much
later is untouched. -/
theorem consultar_terminal_unchanged_witness :
    consultar_estado_pedido ⟨EstadoPedido.ENTREGADO, 0, 4⟩ 1000
      = ⟨EstadoPedido.ENTREGADO, 0, 4⟩ :=
  consultar_terminal_unchanged ⟨EstadoPedido.ENTREGADO, 0, 4⟩ 1000
    (by constructor <;> decide) (Or.inl rfl)

/-- C10: the tracker invariant holds of freshly initialized records, is
preserved by every query, and a query of an invariant record never yields
the Cancelled state. -/
theorem consultar_invariant_estado_indice (p : PedidoInfo) (now : ℚ)
    (hinv : InvPedido p) :
    InvPedido (initPedido now) ∧
    InvPedido (consultar_estado_pedido p now) ∧
    (consultar_estado_pedido p now).estado ≠ EstadoPedido.CANCELADO := by
  obtain ⟨hle, hst⟩ := hinv
  refine ⟨⟨by simp [initPedido], rfl⟩, ?_⟩
  unfold consultar_estado_pedido
  by_cases hcond : 15 < now - p.ts ∧ p.indice < progresion_estados.length - 1
  · rw [if_pos hcond]
    obtain ⟨-, hlt⟩ := hcond
    have hlt4 : p.indice < 4 := by simpa [progresion_estados] using hlt
    refine ⟨⟨?_, ?_⟩, ?_⟩
    · show p.indice + 1 ≤ 4
      omega
    · show progresion_estados.getD (p.indice + 1) p.estado
        = progresion_estados.getD (p.indice + 1) EstadoPedido.CANCELADO
      interval_cases h : p.indice <;> simp [progresion_estados]
    · show progresion_estados.getD (p.indice + 1) p.estado ≠ EstadoPedido.CANCELADO
      interval_cases h : p.indice <;> simp [progresion_estados]
  · rw [if_neg hcond]
    refine ⟨⟨hle, hst⟩, ?_⟩
    rw [hst]
    interval_cases h : p.indice <;> simp [progresion_estados]

/-- Witness for `consultar_invariant_estado_indice` at a concrete record. -/
theorem consultar_invariant_estado_indice_witness :
    InvPedido (initPedido 7) ∧
    InvPedido (consultar_estado_pedido ⟨EstadoPedido.CONFIRMANDO, 0, 0⟩ 20) ∧
    (consultar_estado_pedido ⟨EstadoPedido.CONFIRMANDO, 0, 0⟩ 20).estado
      ≠ EstadoPedido.CANCELADO :=
  consultar_invariant_estado_indice ⟨EstadoPedido.CONFIRMANDO, 0, 0⟩ 20
    (by constructor <;> decide)

/-- Claim C2 read literally: a query advances the record exactly when the
threshold is exceeded and the current state is not the last non-terminal
state of the chain (EnRoute); otherwise the record is unchanged. -/
def claimC2Literal (p : PedidoInfo) (now : ℚ) : Prop :=
  (15 < now - p.ts ∧ p.estado ≠ EstadoPedido.EN_CAMINO →
    consultar_estado_pedido p now =
      { estado := progresion_estados.getD (p.indice + 1) p.estado,
        ts := now, indice := p.indice + 1 }) ∧
  (¬(15 < now - p.ts ∧ p.estado ≠ EstadoPedido.EN_CAMINO) →
    consultar_estado_pedido p now = p)

/-- C2 counterexample: an order in the last non-terminal state EnRoute,
queried 16 seconds after its last change, is advanced to Delivered by the
code, whereas the claim as stated requires it to stay unchanged. -/
theorem consultar_claim_guard_counterexample :
    ¬ claimC2Literal ⟨EstadoPedido.EN_CAMINO, 0, 3⟩ 16 := by
  intro h
  have h2 := h.2 (fun hc => hc.2 rfl)
  have h3 : consultar_estado_pedido ⟨EstadoPedido.EN_CAMINO, 0, 3⟩ 16
      = ⟨EstadoPedido.ENTREGADO, 16, 4⟩ := by
    unfold consultar_estado_pedido
    rw [if_pos ⟨by norm_num, by norm_num [progresion_estados]⟩]
    simp [progresion_estados]
  rw [h2] at h3
  simp [PedidoInfo.mk.injEq] at h3

/-- C2 amended: on every query the tracker advances exactly one state and
resets the timestamp iff the threshold is exceeded and the current state is
not the final state of the progression (Delivered); otherwise the record is
unchanged. -/
theorem consultar_advances_unless_entregado (p : PedidoInfo) (now : ℚ)
    (hinv : InvPedido p) :
    (15 < now - p.ts ∧ p.estado ≠ EstadoPedido.ENTREGADO →
      consultar_estado_pedido p now =
        { estado := progresion_estados.getD (p.indice + 1) EstadoPedido.CANCELADO,
          ts := now, indice := p.indice + 1 }) ∧
    (¬(15 < now - p.ts ∧ p.estado ≠ EstadoPedido.ENTREGADO) →
      consultar_estado_pedido p now = p) := by
  obtain ⟨hle, hst⟩ := hinv
  constructor
  · rintro ⟨h15, hne⟩
    have hlt4 : p.indice < 4 := by
      rcases Nat.lt_or_ge p.indice 4 with h | h
      · exact h
      · exfalso
        have h4 : p.indice = 4 := le_antisymm hle h
        rw [h4] at hst
        simp [progresion_estados] at hst
        exact hne hst
    unfold consultar_estado_pedido
    rw [if_pos ⟨h15, by simpa [progresion_estados] using hlt4⟩]
    have hestado : progresion_estados.getD (p.indice + 1) p.estado
        = progresion_estados.getD (p.indice + 1) EstadoPedido.CANCELADO := by
      interval_cases h : p.indice <;> simp [progresion_estados]
    rw [hestado]
  · intro hnot
    unfold consultar_estado_pedido
    rw [if_neg]
    rintro ⟨h15, hlt⟩
    apply hnot
    refine ⟨h15, ?_⟩
    have hlt4 : p.indice < 4 := by simpa [progresion_estados] using hlt
    rw [hst]
    interval_cases h : p.indice <;> simp [progresion_estados]

/-- Witness for `consultar_advances_unless_entregado`: a fresh Confirming
order queried 16 seconds later moves to Preparing with its timestamp reset. -/
theorem consultar_advances_unless_entregado_witness :
    consultar_estado_pedido ⟨EstadoPedido.CONFIRMANDO, 0, 0⟩ 16
      = ⟨EstadoPedido.EN_PREPARACION, 16, 1⟩ := by
  have h := (consultar_advances_unless_entregado ⟨EstadoPedido.CONFIRMANDO, 0, 0⟩ 16
    (by constructor <;> decide)).1 ⟨by norm_num, by decide⟩
  exact h.trans (by decide)

/-- Repeated queries of one record, modelling the repeated polling of
`_bucle_monitoreo` against `consultar_estado_pedido`. -/
def poll_times (p : PedidoInfo) (times : List ℚ) : PedidoInfo :=
  times.foldl consultar_estado_pedido p

/-- A fresh order polled at 16-second intervals is at progression index
`min n 4` after `n` polls: one step per interval, stopping at Delivered. -/
theorem poll_times_ramp (n : ℕ) :
    poll_times (initPedido 0)
        ((List.range n).map (fun i : ℕ => (16 : ℚ) * ((i : ℚ) + 1))) =
      { estado := progresion_estados.getD (min n 4) EstadoPedido.CANCELADO,
        ts := 16 * ((min n 4 : ℕ) : ℚ), indice := min n 4 } := by
  induction n with
  | zero =>
    simp [poll_times, initPedido, progresion_estados, Nat.zero_min]
  | succ n ih =>
    rw [List.range_succ, List.map_append]
    unfold poll_times at ih ⊢
    rw [List.foldl_append, ih]
    simp only [List.map_cons, List.map_nil, List.foldl_cons, List.foldl_nil]
    rcases Nat.lt_or_ge n 4 with hlt | hge
    · have hmn : min n 4 = n := Nat.min_eq_left (le_of_lt hlt)
      have hmn' : min (n + 1) 4 = n + 1 := Nat.min_eq_left (by omega)
      rw [hmn, hmn']
      unfold consultar_estado_pedido
      rw [if_pos ⟨by push_cast; linarith, by simpa [progresion_estados] using hlt⟩]
      interval_cases n <;> norm_num [progresion_estados, PedidoInfo.mk.injEq]
    · have hmn : min n 4 = 4 := Nat.min_eq_right hge
      have hmn' : min (n + 1) 4 = 4 := Nat.min_eq_right (by omega)
      rw [hmn, hmn']
      unfold consultar_estado_pedido
      rw [if_neg]
      rintro ⟨-, hlt⟩
      simp [progresion_estados] at hlt

/-- C4: every query moves the progression index forward by at most one; it
moves it by exactly one (to the successor state of the chain) iff the
threshold is exceeded and the index is below the last one, and otherwise the
record is untouched; polling a fresh order once per 16-second interval
reaches index `min n 4` after `n` polls — one state per interval, no state
skipped. -/
theorem consultar_one_step_no_skip (p : PedidoInfo) (now : ℚ)
    (hinv : InvPedido p) :
    ((consultar_estado_pedido p now).indice = p.indice ∨
      (consultar_estado_pedido p now).indice = p.indice + 1) ∧
    (15 < now - p.ts ∧ p.indice < 4 →
      (consultar_estado_pedido p now).indice = p.indice + 1 ∧
      (consultar_estado_pedido p now).estado
        = progresion_estados.getD (p.indice + 1) EstadoPedido.CANCELADO) ∧
    (¬(15 < now - p.ts ∧ p.indice < 4) → consultar_estado_pedido p now = p) ∧
    (∀ n : ℕ,
      (poll_times (initPedido 0)
        ((List.range n).map (fun i : ℕ => (16 : ℚ) * ((i : ℚ) + 1)))).indice
          = min n 4) := by
  obtain ⟨hle, hst⟩ := hinv
  refine ⟨?_, ?_, ?_, ?_⟩
  · by_cases hc : 15 < now - p.ts ∧ p.indice < progresion_estados.length - 1
    · right
      unfold consultar_estado_pedido
      rw [if_pos hc]
    · left
      unfold consultar_estado_pedido
      rw [if_neg hc]
  · rintro ⟨h15, hlt4⟩
    unfold consultar_estado_pedido
    rw [if_pos ⟨h15, by simpa [progresion_estados] using hlt4⟩]
    refine ⟨rfl, ?_⟩
    show progresion_estados.getD (p.indice + 1) p.estado = _
    interval_cases h : p.indice <;> simp [progresion_estados]
  · intro hnot
    unfold consultar_estado_pedido
    rw [if_neg]
    rintro ⟨h15, hlt⟩
    exact hnot ⟨h15, by simpa [progresion_estados] using hlt⟩
  · intro n
    rw [poll_times_ramp]

/-- Witness for `consultar_one_step_no_skip`: one over-threshold query of a
fresh order advances its index from 0 to 1, and six interval polls stop at
index 4. -/
theorem consultar_one_step_no_skip_witness :
    (consultar_estado_pedido ⟨EstadoPedido.CONFIRMANDO, 0, 0⟩ 20).indice = 0 + 1 ∧
    (poll_times (initPedido 0)
      ((List.range 6).map (fun i : ℕ => (16 : ℚ) * ((i : ℚ) + 1)))).indice
        = min 6 4 := by
  have h := consultar_one_step_no_skip ⟨EstadoPedido.CONFIRMANDO, 0, 0⟩ 20
    (by constructor <;> decide)
  exact ⟨(h.2.1 ⟨by norm_num, by norm_num⟩).1, h.2.2.2 6⟩

/-- One polling pass of `PideBot._bucle_monitoreo`.  The active orders are
the pairs (order id, stored `estado_actual`); `pollE` is the freshly polled
state of an order id, `Except.error` modelling an exception raised while
processing that order.  Processed entries accumulate in `hechos` and fired
notifications in `notifs`.  On normal completion the pass deletes the
orders marked terminal; an exception is caught at the pass level (the
`try` of the source wraps the whole `for` loop), so the remaining orders
stay unprocessed and no deletion happens in that pass. -/
def bucle_monitoreo_aux (pollE : String → Except String EstadoPedido) :
    List (String × EstadoPedido) → List (String × EstadoPedido) →
    List (String × EstadoPedido) →
    List (String × EstadoPedido) × List (String × EstadoPedido)
  | [], hechos, notifs =>
    let pedidos_a_eliminar := hechos.filterMap
      (fun o => if esTerminal o.2 then some o.1 else none)
    (hechos.filter (fun o => !(pedidos_a_eliminar.contains o.1)), notifs)
  | pedido :: rest, hechos, notifs =>
    match pollE pedido.1 with
    | Except.error _ => (hechos ++ pedido :: rest, notifs)
    | Except.ok nuevo_estado =>
      bucle_monitoreo_aux pollE rest (hechos ++ [(pedido.1, nuevo_estado)])
        (notifs ++ if nuevo_estado ≠ pedido.2 then [(pedido.1, nuevo_estado)] else [])

/-- One full pass of the monitor loop over the active-order list:
remaining active orders and the notifications fired during the pass. -/
def bucle_monitoreo_pass (pollE : String → Except String EstadoPedido)
    (pedidos_activos : List (String × EstadoPedido)) :
    List (String × EstadoPedido) × List (String × EstadoPedido) :=
  bucle_monitoreo_aux pollE pedidos_activos [] []

/-- Closed form of an exception-free pass: every stored state is replaced by
the polled one, terminal entries are deleted at the end of the pass, and a
notification fires for exactly the orders whose polled state differs from
the stored one. -/
theorem bucle_monitoreo_aux_ok (poll : String → EstadoPedido)
    (l hechos notifs : List (String × EstadoPedido)) :
    bucle_monitoreo_aux (fun id => Except.ok (poll id)) l hechos notifs =
      ((hechos ++ l.map (fun o => (o.1, poll o.1))).filter
        (fun o => !(((hechos ++ l.map (fun o => (o.1, poll o.1))).filterMap
          (fun o => if esTerminal o.2 then some o.1 else none)).contains o.1)),
       notifs ++ l.filterMap
         (fun o => if poll o.1 ≠ o.2 then some (o.1, poll o.1) else none)) := by
  induction l generalizing hechos notifs with
  | nil => simp [bucle_monitoreo_aux]
  | cons o rest ih =>
    simp only [bucle_monitoreo_aux]
    rw [ih]
    by_cases hne : poll o.1 ≠ o.2 <;>
      simp [hne, List.filterMap_cons, List.append_assoc]

/-- Counting the complement of a boolean predicate over a list. -/
theorem countP_not_eq_length_sub {α : Type} (p : α → Bool) (l : List α) :
    l.countP (fun a => !p a) = l.length - l.countP p := by
  induction l with
  | nil => simp
  | cons a l ih =>
    have hle : l.countP p ≤ l.length := List.countP_le_length p
    cases h : p a <;> simp [List.countP_cons, h, ih] <;> omega

/-- Membership in the deletion list of an exception-free pass: an id is
marked for deletion iff it is a key of the active list and its polled state
is terminal. -/
theorem mem_eliminar_iff (poll : String → EstadoPedido)
    (pedidos : List (String × EstadoPedido)) (id : String) :
    id ∈ (pedidos.map (fun o => (o.1, poll o.1))).filterMap
        (fun o => if esTerminal o.2 then some o.1 else none) ↔
      (∃ st, (id, st) ∈ pedidos) ∧ esTerminal (poll id) = true := by
  constructor
  · intro h
    obtain ⟨e, he, hsome⟩ := List.mem_filterMap.mp h
    obtain ⟨⟨oid, ost⟩, ho, rfl⟩ := List.mem_map.mp he
    by_cases ht : esTerminal (poll oid) = true
    · rw [if_pos ht] at hsome
      obtain rfl : oid = id := Option.some.inj hsome
      exact ⟨⟨ost, ho⟩, ht⟩
    · rw [if_neg ht] at hsome
      exact absurd hsome (by simp)
  · rintro ⟨⟨st, hmem⟩, ht⟩
    refine List.mem_filterMap.mpr
      ⟨(id, poll id), List.mem_map.mpr ⟨(id, st), hmem, rfl⟩, ?_⟩
    rw [if_pos ht]

/-- C6: in an exception-free pass whose stored states are all non-terminal,
every order whose freshly polled state is terminal has its terminal
notification in the notifications the pass delivers and is absent from the
remaining active list (deletion happens at the end of the pass, after the
notifications fired), and the pass removes exactly the terminally observed
orders: the remaining count is the old count minus the number of terminal
observations. -/
theorem bucle_terminal_notified_then_removed (poll : String → EstadoPedido)
    (pedidos : List (String × EstadoPedido))
    (hstored : ∀ o ∈ pedidos, esTerminal o.2 = false) :
    (∀ o ∈ pedidos, esTerminal (poll o.1) = true →
      (o.1, poll o.1) ∈ (bucle_monitoreo_pass (fun id => Except.ok (poll id)) pedidos).2 ∧
      ∀ e ∈ (bucle_monitoreo_pass (fun id => Except.ok (poll id)) pedidos).1, e.1 ≠ o.1) ∧
    (bucle_monitoreo_pass (fun id => Except.ok (poll id)) pedidos).1.length
      = pedidos.length - pedidos.countP (fun o => esTerminal (poll o.1)) := by
  unfold bucle_monitoreo_pass
  rw [bucle_monitoreo_aux_ok]
  simp only [List.nil_append]
  constructor
  · rintro ⟨oid, ost⟩ ho hterm
    have hne : poll oid ≠ ost := by
      intro he
      rw [he] at hterm
      exact absurd hterm (by simp [hstored (oid, ost) ho])
    constructor
    · exact List.mem_filterMap.mpr ⟨(oid, ost), ho, by rw [if_pos hne]⟩
    · intro e he' heq
      have hmem := List.mem_filter.mp he'
      have hnotin : e.1 ∉ (pedidos.map (fun o => (o.1, poll o.1))).filterMap
          (fun o => if esTerminal o.2 then some o.1 else none) := by
        simpa using hmem.2
      apply hnotin
      rw [heq]
      exact (mem_eliminar_iff poll pedidos oid).mpr ⟨⟨ost, ho⟩, hterm⟩
  · have hcongr : ((pedidos.map (fun o => (o.1, poll o.1))).filter
        (fun o => !(((pedidos.map (fun o => (o.1, poll o.1))).filterMap
          (fun o => if esTerminal o.2 then some o.1 else none)).contains o.1)))
        = (pedidos.map (fun o => (o.1, poll o.1))).filter
            (fun o => !esTerminal (poll o.1)) := by
      apply List.filter_congr
      intro e he
      obtain ⟨⟨oid, ost⟩, ho, rfl⟩ := List.mem_map.mp he
      cases ht : esTerminal (poll oid)
      · have hnot : oid ∉ (pedidos.map (fun o => (o.1, poll o.1))).filterMap
            (fun o => if esTerminal o.2 then some o.1 else none) := by
          intro hm
          have := ((mem_eliminar_iff poll pedidos oid).mp hm).2
          simp [ht] at this
        simp [hnot, ht]
      · have hin : oid ∈ (pedidos.map (fun o => (o.1, poll o.1))).filterMap
            (fun o => if esTerminal o.2 then some o.1 else none) :=
          (mem_eliminar_iff poll pedidos oid).mpr ⟨⟨ost, ho⟩, ht⟩
        simp [hin, ht]
        exact ⟨ost, ho⟩
    rw [hcongr, List.filter_map, List.length_map]
    have hcount : (List.filter
          ((fun o => !esTerminal (poll o.1)) ∘ (fun o => (o.1, poll o.1))) pedidos).length
        = pedidos.countP (fun o => !esTerminal (poll o.1)) :=
      (List.countP_eq_length_filter _ _).symm
    rw [hcount]
    exact countP_not_eq_length_sub _ _

/-- Witness for `bucle_terminal_notified_then_removed`: one EnRoute order
polled Delivered is notified and dropped, leaving no active orders. -/
theorem bucle_terminal_notified_then_removed_witness :
    ("A", EstadoPedido.ENTREGADO) ∈
      (bucle_monitoreo_pass (fun id => Except.ok EstadoPedido.ENTREGADO)
        [("A", EstadoPedido.EN_CAMINO)]).2 ∧
    (bucle_monitoreo_pass (fun id => Except.ok EstadoPedido.ENTREGADO)
        [("A", EstadoPedido.EN_CAMINO)]).1.length
      = [("A", EstadoPedido.EN_CAMINO)].length
        - [("A", EstadoPedido.EN_CAMINO)].countP
            (fun o => esTerminal ((fun _ => EstadoPedido.ENTREGADO) o.1)) := by
  have h := bucle_terminal_notified_then_removed (fun _ => EstadoPedido.ENTREGADO)
    [("A", EstadoPedido.EN_CAMINO)] (by decide)
  exact ⟨(h.1 ("A", EstadoPedido.EN_CAMINO) (by decide) (by decide)).1, h.2⟩

/-- Claim C7 read literally: an exception while processing one order does
not affect the processing of the other orders of the same pass, so every
other order whose poll succeeds with a non-terminal state is recorded with
that state in the remaining active list. -/
def claimC7Isolation (pollE : String → Except String EstadoPedido)
    (pedidos : List (String × EstadoPedido)) : Prop :=
  ∀ oid st nuevo, (oid, st) ∈ pedidos → pollE oid = Except.ok nuevo →
    esTerminal nuevo = false →
    (oid, nuevo) ∈ (bucle_monitoreo_pass pollE pedidos).1

/-- A poller that raises on order A and answers Preparing for any other
order. -/
def pollEx : String → Except String EstadoPedido :=
  fun oid => if oid = "A" then Except.error "fallo simulado"
             else Except.ok EstadoPedido.EN_PREPARACION

/-- C7 counterexample: with orders A and B and an exception on A, the
source's `try` wraps the whole `for` loop of the pass, so B — whose poll
succeeds with Preparing — is left at Confirming for this pass instead of
being updated: the exception does affect the other orders of the pass. -/
theorem bucle_exception_affects_rest_counterexample :
    ¬ claimC7Isolation pollEx
        [("A", EstadoPedido.CONFIRMANDO), ("B", EstadoPedido.CONFIRMANDO)] := by
  intro h
  have hb := h "B" EstadoPedido.CONFIRMANDO EstadoPedido.EN_PREPARACION
    (by simp) rfl rfl
  have hpass : bucle_monitoreo_pass pollEx
      [("A", EstadoPedido.CONFIRMANDO), ("B", EstadoPedido.CONFIRMANDO)]
      = ([("A", EstadoPedido.CONFIRMANDO), ("B", EstadoPedido.CONFIRMANDO)], []) := rfl
  rw [hpass] at hb
  simp at hb

/-- Spine of the pass with a failing order: orders polled before the
failure keep their updates, the failing order and all later orders are
left untouched, and no deletion is performed. -/
theorem bucle_monitoreo_aux_error (pollE : String → Except String EstadoPedido)
    (fallo : String × EstadoPedido) (post : List (String × EstadoPedido))
    (hfail : ∃ msg, pollE fallo.1 = Except.error msg)
    (pre : List (String × EstadoPedido))
    (hechos notifs : List (String × EstadoPedido))
    (hpre : ∀ o ∈ pre, ∃ v, pollE o.1 = Except.ok v) :
    bucle_monitoreo_aux pollE (pre ++ fallo :: post) hechos notifs =
      (hechos ++ pre.map (fun o => (o.1, match pollE o.1 with
          | Except.ok v => v
          | Except.error _ => o.2)) ++ fallo :: post,
       notifs ++ pre.filterMap (fun o => match pollE o.1 with
          | Except.ok v => if v ≠ o.2 then some (o.1, v) else none
          | Except.error _ => none)) := by
  induction pre generalizing hechos notifs with
  | nil =>
    obtain ⟨msg, hmsg⟩ := hfail
    simp [bucle_monitoreo_aux, hmsg]
  | cons o rest ih =>
    obtain ⟨v, hv⟩ := hpre o (by simp)
    simp only [List.cons_append, bucle_monitoreo_aux, hv, List.append_eq]
    rw [ih _ _ (fun o' ho' => hpre o' (by simp [ho']))]
    by_cases hne : v ≠ o.2 <;> simp [hv, hne, List.append_assoc]

/-- C7 amended: any exception raised while processing one order during a
poll pass is caught (at the pass level) and does not abort the loop; the
affected order is left in its last known state for retry on the next
interval; orders processed before it keep their updates and notifications;
but the orders after it in the same pass are skipped for that pass, and no
terminal order is removed in a pass that raised. -/
theorem bucle_exception_caught_rest_skipped
    (pollE : String → Except String EstadoPedido)
    (pre post : List (String × EstadoPedido)) (fallo : String × EstadoPedido)
    (hpre : ∀ o ∈ pre, ∃ v, pollE o.1 = Except.ok v)
    (hfail : ∃ msg, pollE fallo.1 = Except.error msg) :
    bucle_monitoreo_pass pollE (pre ++ fallo :: post) =
      (pre.map (fun o => (o.1, match pollE o.1 with
          | Except.ok v => v
          | Except.error _ => o.2)) ++ fallo :: post,
       pre.filterMap (fun o => match pollE o.1 with
          | Except.ok v => if v ≠ o.2 then some (o.1, v) else none
          | Except.error _ => none)) := by
  unfold bucle_monitoreo_pass
  rw [bucle_monitoreo_aux_error pollE fallo post hfail pre [] [] hpre]
  simp

/-- Witness for `bucle_exception_caught_rest_skipped`: C is polled first and
updated, A raises, B after it is skipped; nothing is removed and only C's
change is notified. -/
theorem bucle_exception_caught_rest_skipped_witness :
    bucle_monitoreo_pass pollEx
        ([("C", EstadoPedido.CONFIRMANDO)]
          ++ ("A", EstadoPedido.EN_CAMINO) :: [("B", EstadoPedido.CONFIRMANDO)])
      = ([("C", EstadoPedido.EN_PREPARACION), ("A", EstadoPedido.EN_CAMINO),
          ("B", EstadoPedido.CONFIRMANDO)],
         [("C", EstadoPedido.EN_PREPARACION)]) := by
  have h := bucle_exception_caught_rest_skipped pollEx
    [("C", EstadoPedido.CONFIRMANDO)] [("B", EstadoPedido.CONFIRMANDO)]
    ("A", EstadoPedido.EN_CAMINO)
    (by
      intro o ho
      simp at ho
      subst ho
      exact ⟨EstadoPedido.EN_PREPARACION, rfl⟩)
    ⟨"fallo simulado", rfl⟩
  simpa [pollEx] using h

end AgentesIA

namespace AgentesIA

/-- Room dimensions of `room_design_agent.py` — width and length in
metres. -/
structure RoomDims where
  width : ℚ
  length : ℚ
deriving DecidableEq

/-- A furniture catalog entry's footprint (`dimensions` in the catalog). -/
structure FurnDims where
  width : ℚ
  length : ℚ
  height : ℚ
deriving DecidableEq

/-- A furniture catalog entry, as consumed by `DesignVisualizer`. -/
structure Furniture where
  id : String
  name : String
  category : String
  dims : FurnDims
  price : ℚ
deriving DecidableEq

/-- An assigned position (the dict `{x, y}` of `find_optimal_position`). -/
structure Pos where
  x : ℚ
  y : ℚ
deriving DecidableEq

/-- An entry of `used_positions` in `generate_room_layout`. -/
structure UsedPos where
  x : ℚ
  y : ℚ
  width : ℚ
  length : ℚ
deriving DecidableEq

/-- A positioned furniture item of the produced layout. -/
structure PositionedItem where
  id : String
  name : String
  category : String
  pos : Pos
  dims : FurnDims
deriving DecidableEq

/-- The clearance margin of `DesignVisualizer._position_conflicts`
(`margin = 0.3`, 30 cm between furniture). -/
def margin : ℚ := 0.3

/-- The scan step of `DesignVisualizer.find_optimal_position`
(`grid_size = 0.5`, positions every 50 cm). -/
def grid_size : ℚ := 0.5

/-- `DesignVisualizer._frange`: the values `start, start + step, ...`
strictly below `stop` (exact rational arithmetic). -/
def frange (start stop step : ℚ) : List ℚ :=
  (List.range (Nat.ceil ((stop - start) / step))).map
    (fun i : ℕ => start + (i : ℚ) * step)

/-- `DesignVisualizer._position_conflicts`: a candidate rectangle conflicts
with some already used position when the two footprints are closer than the
clearance margin on both axes. -/
def position_conflicts (x y width length : ℚ)
    (used_positions : List UsedPos) : Bool :=
  used_positions.any (fun used => decide
    (x < used.x + used.width + margin ∧ x + width + margin > used.x ∧
     y < used.y + used.length + margin ∧ y + length + margin > used.y))

/-- `DesignVisualizer.find_optimal_position`: scan the grid, `x` in the
outer loop and `y` in the inner one, and return the first position whose
footprint does not conflict with any used position; `none` when no grid
position is free. -/
def find_optimal_position (furniture : Furniture) (room_dimensions : RoomDims)
    (used_positions : List UsedPos) : Option Pos :=
  let furniture_width := furniture.dims.width
  let furniture_length := furniture.dims.length
  ((frange 0.2 (room_dimensions.width - furniture_width - 0.2) grid_size).bind
    (fun x =>
      (frange 0.2 (room_dimensions.length - furniture_length - 0.2) grid_size).map
        (fun y => Pos.mk x y))).find?
    (fun p => !(position_conflicts p.x p.y furniture_width furniture_length
        used_positions))

/-- The used-positions entry recorded for a placed item in
`generate_room_layout`. -/
def toUsed (it : PositionedItem) : UsedPos :=
  ⟨it.pos.x, it.pos.y, it.dims.width, it.dims.length⟩

/-- The placement loop of `DesignVisualizer.generate_room_layout`: place
each item at its found position, extending `positioned_items` and
`used_positions`; an item with no free position is dropped. -/
def generate_room_layout_aux (room_dimensions : RoomDims) :
    List Furniture → List PositionedItem → List UsedPos → List PositionedItem
  | [], positioned_items, _ => positioned_items
  | item :: rest, positioned_items, used_positions =>
    match find_optimal_position item room_dimensions used_positions with
    | some p =>
      generate_room_layout_aux room_dimensions rest
        (positioned_items ++ [⟨item.id, item.name, item.category, p, item.dims⟩])
        (used_positions ++ [⟨p.x, p.y, item.dims.width, item.dims.length⟩])
    | none => generate_room_layout_aux room_dimensions rest positioned_items used_positions

/-- The stable sort of `generate_room_layout`: items ordered by footprint
area, largest first. -/
def sorted_furniture (furniture_items : List Furniture) : List Furniture :=
  furniture_items.insertionSort
    (fun a b => b.dims.width * b.dims.length ≤ a.dims.width * a.dims.length)

/-- `DesignVisualizer.generate_room_layout`, furniture placement: the list
of positioned items of the produced layout. -/
def generate_room_layout (furniture_items : List Furniture)
    (room_dimensions : RoomDims) : List PositionedItem :=
  generate_room_layout_aux room_dimensions (sorted_furniture furniture_items) [] []

/-- `DesignVisualizer._calculate_used_area`: total unexpanded footprint
area of the placed items. -/
def total_area_used (positioned_items : List PositionedItem) : ℚ :=
  (positioned_items.map (fun item => item.dims.width * item.dims.length)).sum

/-- `DesignVisualizer._calculate_efficiency`: percentage of the room area
occupied, 0 when the room area is not positive. -/
def area_efficiency (positioned_items : List PositionedItem)
    (room_dimensions : RoomDims) : ℚ :=
  let room_area := room_dimensions.width * room_dimensions.length
  if room_area > 0 then total_area_used positioned_items / room_area * 100 else 0

/-- Two placed items' clearance-expanded footprints overlap: the conflict
test of `_position_conflicts` read as a proposition on placed items. -/
def overlapProp (a b : PositionedItem) : Prop :=
  a.pos.x < b.pos.x + b.dims.width + margin ∧
  a.pos.x + a.dims.width + margin > b.pos.x ∧
  a.pos.y < b.pos.y + b.dims.length + margin ∧
  a.pos.y + a.dims.length + margin > b.pos.y

/-- A placed item's unexpanded footprint lies inside the room rectangle. -/
def inBounds (room_dimensions : RoomDims) (it : PositionedItem) : Prop :=
  0 ≤ it.pos.x ∧ 0 ≤ it.pos.y ∧
  it.pos.x + it.dims.width ≤ room_dimensions.width ∧
  it.pos.y + it.dims.length ≤ room_dimensions.length

/-- The conflict proposition is symmetric in the two items. -/
theorem overlapProp_comm (a b : PositionedItem) :
    overlapProp a b ↔ overlapProp b a := by
  unfold overlapProp
  constructor <;> rintro ⟨h1, h2, h3, h4⟩ <;> exact ⟨h2, h1, h4, h3⟩

/-- Every value produced by `frange` is at least `start` and strictly below
`stop` (for a positive step). -/
theorem mem_frange {s t st v : ℚ} (hst : 0 < st) (hv : v ∈ frange s t st) :
    s ≤ v ∧ v < t := by
  obtain ⟨i, hi, rfl⟩ := List.mem_map.mp hv
  rw [List.mem_range] at hi
  constructor
  · have : 0 ≤ (i : ℚ) * st := mul_nonneg (Nat.cast_nonneg i) hst.le
    linarith
  · have hlt : (i : ℚ) < (t - s) / st := Nat.lt_ceil.mp hi
    have := (lt_div_iff hst).mp hlt
    linarith

/-- `position_conflicts` is false exactly when the candidate conflicts with
no used position. -/
theorem position_conflicts_eq_false_iff {x y w l : ℚ} {used : List UsedPos} :
    position_conflicts x y w l used = false ↔
      ∀ u ∈ used, ¬(x < u.x + u.width + margin ∧ x + w + margin > u.x ∧
        y < u.y + u.length + margin ∧ y + l + margin > u.y) := by
  simp [position_conflicts]

/-- Unpacking a successful `find_optimal_position`: the returned position is
a grid point whose coordinates respect the 0.2 border on all four sides,
and it conflicts with no used position. -/
theorem find_optimal_position_some {furniture : Furniture} {room : RoomDims}
    {used : List UsedPos} {p : Pos}
    (h : find_optimal_position furniture room used = some p) :
    (0.2 ≤ p.x ∧ p.x < room.width - furniture.dims.width - 0.2) ∧
    (0.2 ≤ p.y ∧ p.y < room.length - furniture.dims.length - 0.2) ∧
    position_conflicts p.x p.y furniture.dims.width furniture.dims.length used
      = false := by
  have hmem := List.mem_of_find?_eq_some h
  have hpred := List.find?_some h
  obtain ⟨x, hx, hxy⟩ := List.mem_bind.mp hmem
  obtain ⟨y, hy, rfl⟩ := List.mem_map.mp hxy
  have hxb := mem_frange (by norm_num [grid_size]) hx
  have hyb := mem_frange (by norm_num [grid_size]) hy
  refine ⟨hxb, hyb, ?_⟩
  have hconf := hpred
  simp only [Bool.not_eq_true'] at hconf
  exact hconf

/-- Invariant of the placement loop: if the accumulated placed items are
pairwise non-conflicting, in bounds, and mirrored exactly by the used
positions, the same holds of the full result of the loop. -/
theorem generate_room_layout_aux_invariant (room : RoomDims)
    (todo : List Furniture) (placed : List PositionedItem) (used : List UsedPos)
    (hused : used = placed.map toUsed)
    (hpair : placed.Pairwise (fun a b => ¬ overlapProp a b))
    (hbound : ∀ it ∈ placed, inBounds room it) :
    (generate_room_layout_aux room todo placed used).Pairwise
      (fun a b => ¬ overlapProp a b) ∧
    ∀ it ∈ generate_room_layout_aux room todo placed used, inBounds room it := by
  induction todo generalizing placed used with
  | nil =>
    simp only [generate_room_layout_aux]
    exact ⟨hpair, hbound⟩
  | cons item rest ih =>
    simp only [generate_room_layout_aux]
    cases hfind : find_optimal_position item room used with
    | none => exact ih placed used hused hpair hbound
    | some p =>
      obtain ⟨⟨hx0, hx1⟩, ⟨hy0, hy1⟩, hconf⟩ := find_optimal_position_some hfind
      have hnoov : ∀ a ∈ placed,
          ¬ overlapProp ⟨item.id, item.name, item.category, p, item.dims⟩ a := by
        intro a ha hov
        have hu : toUsed a ∈ used := by
          rw [hused]
          exact List.mem_map_of_mem toUsed ha
        exact position_conflicts_eq_false_iff.mp hconf (toUsed a) hu hov
      apply ih
      · rw [hused]
        simp [toUsed]
      · rw [List.pairwise_append]
        refine ⟨hpair, by simp, ?_⟩
        intro a ha b hb
        simp only [List.mem_singleton] at hb
        subst hb
        intro hov
        exact hnoov a ha ((overlapProp_comm _ _).mp hov)
      · intro it hit
        rcases List.mem_append.mp hit with hmem | hmem
        · exact hbound it hmem
        · simp only [List.mem_singleton] at hmem
          subst hmem
          refine ⟨?_, ?_, ?_, ?_⟩
          · show (0 : ℚ) ≤ p.x
            linarith
          · show (0 : ℚ) ≤ p.y
            linarith
          · show p.x + item.dims.width ≤ room.width
            linarith
          · show p.y + item.dims.length ≤ room.length
            linarith

/-- C1: in every placement run, the positioned items are pairwise free of
clearance-expanded overlap and every placed footprint lies inside the room
rectangle. -/
theorem generate_room_layout_no_overlap_in_bounds
    (furniture_items : List Furniture) (room : RoomDims) :
    (generate_room_layout furniture_items room).Pairwise
      (fun a b => ¬ overlapProp a b) ∧
    ∀ it ∈ generate_room_layout furniture_items room, inBounds room it := by
  unfold generate_room_layout
  exact generate_room_layout_aux_invariant room (sorted_furniture furniture_items)
    [] [] rfl (by simp) (by simp)

/-- Witness for `generate_room_layout_no_overlap_in_bounds`: a concrete run
with a bed and a nightstand in a 4×5 room. -/
theorem generate_room_layout_no_overlap_in_bounds_witness :
    (generate_room_layout
        [⟨"bed_modern_1", "Cama Platform King", "cama", ⟨2, 2.2, 0.4⟩, 1200⟩,
         ⟨"nightstand_modern_1", "Mesa de Noche Suspendida", "mesa_noche",
           ⟨0.5, 0.3, 0.15⟩, 180⟩] ⟨4, 5⟩).Pairwise
      (fun a b => ¬ overlapProp a b) ∧
    ∀ it ∈ generate_room_layout
        [⟨"bed_modern_1", "Cama Platform King", "cama", ⟨2, 2.2, 0.4⟩, 1200⟩,
         ⟨"nightstand_modern_1", "Mesa de Noche Suspendida", "mesa_noche",
           ⟨0.5, 0.3, 0.15⟩, 180⟩] ⟨4, 5⟩, inBounds ⟨4, 5⟩ it :=
  generate_room_layout_no_overlap_in_bounds
    [⟨"bed_modern_1", "Cama Platform King", "cama", ⟨2, 2.2, 0.4⟩, 1200⟩,
     ⟨"nightstand_modern_1", "Mesa de Noche Suspendida", "mesa_noche",
       ⟨0.5, 0.3, 0.15⟩, 180⟩] ⟨4, 5⟩

/-- In a room with a non-positive width or length, no grid position exists
for an item of nonnegative footprint. -/
theorem find_optimal_position_none_of_bad_room (furniture : Furniture)
    (room : RoomDims) (used : List UsedPos)
    (hf : 0 ≤ furniture.dims.width ∧ 0 ≤ furniture.dims.length)
    (hr : room.width ≤ 0 ∨ room.length ≤ 0) :
    find_optimal_position furniture room used = none := by
  simp only [find_optimal_position]
  rcases hr with hr | hr
  · have hx : frange 0.2 (room.width - furniture.dims.width - 0.2) grid_size = [] := by
      unfold frange
      have hceil : Nat.ceil ((room.width - furniture.dims.width - 0.2 - 0.2) / grid_size)
          = 0 := by
        apply Nat.ceil_eq_zero.mpr
        apply div_nonpos_of_nonpos_of_nonneg
        · have := hf.1
          norm_num
          linarith
        · norm_num [grid_size]
      rw [hceil]
      simp
    rw [hx]
    simp
  · have hy : frange 0.2 (room.length - furniture.dims.length - 0.2) grid_size = [] := by
      unfold frange
      have hceil : Nat.ceil ((room.length - furniture.dims.length - 0.2 - 0.2) / grid_size)
          = 0 := by
        apply Nat.ceil_eq_zero.mpr
        apply div_nonpos_of_nonpos_of_nonneg
        · have := hf.2
          norm_num
          linarith
        · norm_num [grid_size]
      rw [hceil]
      simp
    rw [hy]
    simp

/-- The placement loop places nothing when no item has a position. -/
theorem generate_room_layout_aux_nil (room : RoomDims)
    (todo : List Furniture) (placed : List PositionedItem) (used : List UsedPos)
    (hnone : ∀ item ∈ todo, ∀ u : List UsedPos,
      find_optimal_position item room u = none) :
    generate_room_layout_aux room todo placed used = placed := by
  induction todo generalizing placed used with
  | nil => simp [generate_room_layout_aux]
  | cons item rest ih =>
    simp only [generate_room_layout_aux]
    rw [hnone item (by simp) used]
    exact ih placed used (fun it hit u => hnone it (by simp [hit]) u)

/-- C8: a room with non-positive width or length yields an empty placement
with occupancy efficiency 0 (for items with nonnegative footprints, as all
catalog items have). -/
theorem generate_room_layout_empty_for_bad_room
    (furniture_items : List Furniture) (room : RoomDims)
    (hroom : room.width ≤ 0 ∨ room.length ≤ 0)
    (hitems : ∀ it ∈ furniture_items,
      0 ≤ it.dims.width ∧ 0 ≤ it.dims.length) :
    generate_room_layout furniture_items room = [] ∧
    area_efficiency (generate_room_layout furniture_items room) room = 0 := by
  have hempty : generate_room_layout furniture_items room = [] := by
    unfold generate_room_layout
    apply generate_room_layout_aux_nil
    intro item hitem u
    apply find_optimal_position_none_of_bad_room item room u ?_ hroom
    exact hitems item ((List.perm_insertionSort _ furniture_items).mem_iff.mp hitem)
  refine ⟨hempty, ?_⟩
  rw [hempty]
  unfold area_efficiency total_area_used
  simp

/-- Witness for `generate_room_layout_empty_for_bad_room`: a zero-width
room with one catalog item. -/
theorem generate_room_layout_empty_for_bad_room_witness :
    generate_room_layout
        [⟨"bed_modern_1", "Cama Platform King", "cama", ⟨2, 2.2, 0.4⟩, 1200⟩]
        ⟨0, 5⟩ = [] ∧
    area_efficiency (generate_room_layout
        [⟨"bed_modern_1", "Cama Platform King", "cama", ⟨2, 2.2, 0.4⟩, 1200⟩]
        ⟨0, 5⟩) ⟨0, 5⟩ = 0 :=
  generate_room_layout_empty_for_bad_room
    [⟨"bed_modern_1", "Cama Platform King", "cama", ⟨2, 2.2, 0.4⟩, 1200⟩]
    ⟨0, 5⟩ (Or.inl (by norm_num)) (by intro it hit; simp at hit; subst hit; norm_num)

end AgentesIA
